import Mathlib

/-!
Shallow embedding of `ldk-server/src/util/metrics.rs` (the metrics module of
ldk-server) together with a model of the pieces of the `prometheus` crate
that the module uses: named integer gauges, registries with
register-or-fail-on-duplicate semantics, the global `gather()` over the
default registry, and the text exposition encoder followed by
`String::from_utf8` validation.

State is made explicit: a `World` carries the process-wide default registry
and one further registry (enough to distinguish "the registry passed to
`Metrics::new`" from "the default registry that the global `gather()`
reads").  The Rust panic in `Metrics::new` (via `.expect`) is modelled with
`Except`.
-/

namespace LdkServer

/-- A named integer gauge, as created by `register_int_gauge_with_registry!`
with `Opts::new(name, help)`.  A fresh prometheus `IntGauge` starts at 0. -/
structure Gauge where
  name : String
  help : String
  value : Int
deriving Repr, DecidableEq

/-- A prometheus `Registry`: the collection of registered metrics (here only
integer gauges occur). -/
abbrev Registry := List Gauge

/-- Registration error of the prometheus crate: `Error::AlreadyReg`-style
failure when a metric with the same name is already registered. -/
inductive RegError where
  | alreadyReg (name : String)
deriving Repr, DecidableEq

/-- Whether some gauge with the given name is registered. -/
def Registry.containsName (reg : Registry) (n : String) : Bool :=
  reg.any (fun g => g.name == n)

/-- `register_int_gauge_with_registry!(Opts::new(n, h), registry)`: fails if
a metric named `n` is already registered (never overwrites), otherwise adds
a fresh gauge with value 0. -/
def Registry.register (reg : Registry) (n h : String) : Except RegError Registry :=
  if reg.containsName n then .error (.alreadyReg n)
  else .ok (reg ++ [⟨n, h, 0⟩])

/-- `IntGauge::set` reached through the registry: last-writer-wins update of
the gauge(s) registered under name `n`. -/
def Registry.set (reg : Registry) (n : String) (v : Int) : Registry :=
  reg.map (fun g => if g.name == n then { g with value := v } else g)

/-- Read the current value of the gauge registered under `n`. -/
def Registry.getValue (reg : Registry) (n : String) : Option Int :=
  (reg.find? (fun g => g.name == n)).map (·.value)

/-- Which registry a `Metrics` value was constructed over: the process-wide
default registry (`default_registry()`), or some other registry instance. -/
inductive RegistrySel where
  | defaultR
  | customR
deriving Repr, DecidableEq

/-- The registry state of the process: the default registry that the global
`gather()` reads, plus one non-default registry instance. -/
structure World where
  defaultReg : Registry
  customReg : Registry
deriving DecidableEq

def World.get (w : World) : RegistrySel → Registry
  | .defaultR => w.defaultReg
  | .customR => w.customReg

def World.setReg (w : World) : RegistrySel → Registry → World
  | .defaultR, r => { w with defaultReg := r }
  | .customR, r => { w with customReg := r }

/-- `ldk_node::NodeStatus`, restricted to the fields the metrics module
reads. -/
structure NodeStatus where
  is_running : Bool
  latest_lightning_wallet_sync_timestamp : Option Nat
deriving Repr, DecidableEq

/-- `ldk_node::Node`, restricted to the two infallible queries the metrics
module performs: `status()` and `list_peers()` (peers identified by id). -/
structure Node where
  status : NodeStatus
  peers : List String
deriving Repr, DecidableEq

def Node.list_peers (n : Node) : List String := n.peers

/-- The `Metrics` struct: in Rust it owns the `IntGauge` handle shared with
the registry it was registered in; here the handle is the registry selector
plus the gauge name. -/
structure Metrics where
  registrySel : RegistrySel
  gaugeName : String
deriving Repr, DecidableEq

/-- Name of the health gauge as registered by `Metrics::new`. -/
def healthGaugeName : String := "ldk_health_score"

/-- Help string of the health gauge as registered by `Metrics::new`. -/
def healthGaugeHelp : String := "Current health score (0-100)"

/-- `Metrics::new(registry)`: registers the health gauge; on a registration
failure the Rust code panics via `.expect("Failed to register metric")`,
modelled as the `.error` branch. -/
def Metrics.new (w : World) (sel : RegistrySel) : Except RegError (World × Metrics) :=
  match (w.get sel).register healthGaugeName healthGaugeHelp with
  | .error e => .error e
  | .ok reg => .ok (w.setReg sel reg, ⟨sel, healthGaugeName⟩)

/-- `Metrics::compute_health_score`, translated statement by statement:
early return 0 when not running, else start from 100 and subtract 35 and/or
25. -/
def compute_health_score (is_running has_peers is_wallet_synced : Bool) : Int :=
  if !is_running then 0
  else
    let health_score : Int := 100
    let health_score := if !has_peers then health_score - 35 else health_score
    let health_score := if !is_wallet_synced then health_score - 25 else health_score
    health_score

/-- `Metrics::calculate_ldk_server_health_score`: derive the three boolean
signals from the node and score them. -/
def calculate_ldk_server_health_score (node : Node) : Int :=
  compute_health_score
    node.status.is_running
    (!node.list_peers.isEmpty)
    node.status.latest_lightning_wallet_sync_timestamp.isSome

/-- `Metrics::update_service_health_score`: compute the score and `set` the
health gauge.  The node queries are infallible, so the function is total and
returns nothing to the caller. -/
def Metrics.update_service_health_score (m : Metrics) (w : World) (node : Node) : World :=
  w.setReg m.registrySel
    ((w.get m.registrySel).set m.gaugeName (calculate_ldk_server_health_score node))

/-- Error type of `crate::api::error::LdkServerError`, restricted to the
variant the metrics module produces via the `?` conversions. -/
inductive LdkServerError where
  | serializationError (msg : String)
deriving Repr, DecidableEq

/-- Decimal digit character for `d < 10`. -/
def digitChar (d : Nat) : Char :=
  if d = 0 then '0' else if d = 1 then '1' else if d = 2 then '2'
  else if d = 3 then '3' else if d = 4 then '4' else if d = 5 then '5'
  else if d = 6 then '6' else if d = 7 then '7' else if d = 8 then '8'
  else '9'

/-- Decimal digits of `n`, most significant first. -/
def natDigits (n : Nat) : List Char :=
  if _ : n < 10 then [digitChar n]
  else natDigits (n / 10) ++ [digitChar (n % 10)]
decreasing_by exact Nat.div_lt_self (by omega) (by omega)

/-- Decimal rendering of an `i64` gauge value as printed by the text
encoder. -/
def intRepr (i : Int) : String :=
  if i < 0 then String.mk ('-' :: natDigits i.natAbs) else String.mk (natDigits i.toNat)

/-- The three text-exposition lines of one gauge: `# HELP`, `# TYPE`, and
the sample line `name value`. -/
def gaugeLines (g : Gauge) : List String :=
  ["# HELP " ++ g.name ++ " " ++ g.help,
   "# TYPE " ++ g.name ++ " gauge",
   g.name ++ " " ++ intRepr g.value]

/-- All lines of the exposition text for a registry. -/
def renderLines (reg : Registry) : List String :=
  (reg.map gaugeLines).flatten

/-- The exposition text: every line followed by a newline. -/
def renderRegistry (reg : Registry) : String :=
  String.mk ((renderLines reg).map (fun l => l.data ++ ['\n'])).flatten

/-- UTF-8 encoding of one scalar value (1 to 4 bytes). -/
def utf8EncodeChar (v : Nat) : List Nat :=
  if v < 0x80 then [v]
  else if v < 0x800 then [0xC0 + v / 64, 0x80 + v % 64]
  else if v < 0x10000 then [0xE0 + v / 4096, 0x80 + v / 64 % 64, 0x80 + v % 64]
  else [0xF0 + v / 262144, 0x80 + v / 4096 % 64, 0x80 + v / 64 % 64, 0x80 + v % 64]

/-- UTF-8 encoding of a character sequence. -/
def utf8Encode (cs : List Char) : List Nat :=
  (cs.map (fun c => utf8EncodeChar c.toNat)).flatten

/-- Whether a byte is a UTF-8 continuation byte (`10xxxxxx`). -/
def isCont (b : Nat) : Bool :=
  decide (0x80 ≤ b ∧ b < 0xC0)

/-- Strict UTF-8 decoder (the validation performed by `String::from_utf8`),
as a byte-at-a-time state machine: `pending` is the number of continuation
bytes still expected, `acc` the value accumulated so far, and `lo` the
smallest scalar value the current multi-byte sequence may produce (this
rejects overlong encodings).  Stray continuation bytes, surrogate code
points and values above `0x10FFFF` are rejected. -/
def utf8DecodeAux : List Nat → Nat → Nat → Nat → Option (List Char)
  | [], 0, _, _ => some []
  | [], _ + 1, _, _ => none
  | b :: bs, 0, _, _ =>
    if b < 0x80 then (utf8DecodeAux bs 0 0 0).map (fun cs => Char.ofNat b :: cs)
    else if b < 0xC2 then none
    else if b < 0xE0 then utf8DecodeAux bs 1 (b - 0xC0) 0x80
    else if b < 0xF0 then utf8DecodeAux bs 2 (b - 0xE0) 0x800
    else if b < 0xF5 then utf8DecodeAux bs 3 (b - 0xF0) 0x10000
    else none
  | b :: bs, 1, acc, lo =>
    if isCont b then
      let v := acc * 64 + (b - 0x80)
      if decide (lo ≤ v) && !decide (0xD800 ≤ v ∧ v < 0xE000) && decide (v < 0x110000) then
        (utf8DecodeAux bs 0 0 0).map (fun cs => Char.ofNat v :: cs)
      else none
    else none
  | b :: bs, n + 2, acc, lo =>
    if isCont b then utf8DecodeAux bs (n + 1) (acc * 64 + (b - 0x80)) lo
    else none

/-- Decode a full byte sequence from the initial decoder state. -/
def utf8Decode (bytes : List Nat) : Option (List Char) :=
  utf8DecodeAux bytes 0 0 0

/-- The prometheus `TextEncoder::encode` step into a fresh byte buffer:
renders the metric families into the text format, UTF-8 encoded.  Writing
into a `Vec<u8>` cannot fail, so the result is always `.ok`; the `Except`
mirrors the Rust `Result` signature of `Encoder::encode`. -/
def textEncode (reg : Registry) : Except String (List Nat) :=
  .ok (utf8Encode (renderRegistry reg).data)

/-- The global `gather()` call: it collects the metric families of the
default registry only, whatever other registry instances exist. -/
def gather (w : World) : Registry := w.defaultReg

/-- `String::from_utf8`: succeeds exactly on valid UTF-8 byte sequences. -/
def stringFromUtf8 (bytes : List Nat) : Except String String :=
  match utf8Decode bytes with
  | some cs => .ok (String.mk cs)
  | none => .error "invalid utf-8 sequence"

/-- `Metrics::gather_metrics`: encode the gathered metric families, then
convert the buffer with `String::from_utf8`; both failure cases are mapped
into `LdkServerError` by the `?` conversions. -/
def Metrics.gather_metrics (w : World) : Except LdkServerError String :=
  match textEncode (gather w) with
  | .error e => .error (.serializationError e)
  | .ok buffer =>
    match stringFromUtf8 buffer with
    | .error e => .error (.serializationError e)
    | .ok s => .ok s

/-- State-passing form of `gather_metrics`.  The Rust function takes `&self`
and shared references only and performs no write, so the world component is
returned unchanged. -/
def Metrics.gather_metrics_st (w : World) : Except LdkServerError String × World :=
  (Metrics.gather_metrics w, w)

/-- Split a character list at every newline character. -/
def splitLinesAux : List Char → List (List Char)
  | [] => [[]]
  | c :: cs =>
    if c = '\n' then [] :: splitLinesAux cs
    else
      match splitLinesAux cs with
      | [] => [[c]]
      | l :: ls => (c :: l) :: ls

/-- The lines of a string (maximal newline-free segments). -/
def linesOf (s : String) : List String :=
  (splitLinesAux s.data).map (fun l => String.mk l)

/-- `s` contains `l` as one complete line. -/
def containsLine (s l : String) : Prop :=
  l ∈ linesOf s

theorem string_mk_data (s : String) : String.mk s.data = s := by
  cases s
  rfl

theorem digitChar_ne_nl (d : Nat) : digitChar d ≠ '\n' := by
  unfold digitChar
  repeat' split
  all_goals decide

theorem natDigits_ne_nl (n : Nat) : '\n' ∉ natDigits n := by
  induction n using Nat.strongRecOn with
  | ind n ih =>
    rw [natDigits]
    split
    · intro hmem
      rcases List.mem_singleton.mp hmem with h
      exact digitChar_ne_nl n h.symm
    · intro hmem
      rcases List.mem_append.mp hmem with h | h
      · exact ih (n / 10) (Nat.div_lt_self (by omega) (by omega)) h
      · exact digitChar_ne_nl (n % 10) (List.mem_singleton.mp h).symm

theorem intRepr_ne_nl (i : Int) : '\n' ∉ (intRepr i).data := by
  unfold intRepr
  split
  · intro hmem
    rcases List.mem_cons.mp hmem with h | h
    · exact absurd h (by decide)
    · exact natDigits_ne_nl _ h
  · exact natDigits_ne_nl _

theorem splitLinesAux_ne_nil (cs : List Char) : splitLinesAux cs ≠ [] := by
  cases cs with
  | nil => simp [splitLinesAux]
  | cons c cs =>
    unfold splitLinesAux
    split
    · simp
    · split <;> simp

theorem splitLinesAux_line (l rest : List Char) (h : '\n' ∉ l) :
    splitLinesAux (l ++ '\n' :: rest) = l :: splitLinesAux rest := by
  induction l with
  | nil => simp [splitLinesAux]
  | cons c cs ih =>
    have hc : ¬ (c = '\n') := fun e => h (by simp [e])
    have h' : '\n' ∉ cs := fun m => h (List.mem_cons_of_mem _ m)
    rw [List.cons_append]
    simp only [splitLinesAux, if_neg hc]
    rw [ih h']

theorem splitLinesAux_flatten (ls : List String) (h : ∀ l ∈ ls, '\n' ∉ l.data) :
    splitLinesAux ((ls.map (fun l => l.data ++ ['\n'])).flatten)
      = ls.map String.data ++ [[]] := by
  induction ls with
  | nil => simp [splitLinesAux]
  | cons l ls ih =>
    have h1 : '\n' ∉ l.data := h l (by simp)
    have h2 : ∀ l' ∈ ls, '\n' ∉ l'.data := fun l' hl' => h l' (by simp [hl'])
    rw [List.map_cons, List.flatten_cons, List.append_assoc, List.singleton_append,
      splitLinesAux_line _ _ h1, ih h2, List.map_cons, List.cons_append]

theorem linesOf_renderRegistry (reg : Registry) (h : ∀ l ∈ renderLines reg, '\n' ∉ l.data) :
    linesOf (renderRegistry reg) = renderLines reg ++ [""] := by
  show ((splitLinesAux (renderRegistry reg).data).map fun l => String.mk l) = _
  have hdata : (renderRegistry reg).data
      = ((renderLines reg).map (fun l => l.data ++ ['\n'])).flatten := rfl
  rw [hdata, splitLinesAux_flatten _ h, List.map_append, List.map_map]
  have : (renderLines reg).map (String.mk ∘ String.data) = renderLines reg :=
    List.map_id'' (fun s => string_mk_data s) _
  rw [this]
  rfl

theorem utf8DecodeAux_encodeChar (v : Nat) (bs : List Nat) (hv : Nat.isValidChar v) :
    utf8DecodeAux (utf8EncodeChar v ++ bs) 0 0 0
      = (utf8DecodeAux bs 0 0 0).map (fun cs => Char.ofNat v :: cs) := by
  have hlt : v < 0x110000 := by
    rcases hv with h | ⟨_, h⟩
    · omega
    · exact h
  have hns : ¬ (0xD800 ≤ v ∧ v < 0xE000) := by
    rcases hv with h | ⟨h, _⟩ <;> omega
  by_cases h1 : v < 0x80
  · rw [utf8EncodeChar, if_pos h1]
    simp [utf8DecodeAux, h1]
  · by_cases h2 : v < 0x800
    · rw [utf8EncodeChar, if_neg h1, if_pos h2]
      have hb1 : ¬ (0xC0 + v / 64 < 0x80) := by omega
      have hb2 : ¬ (0xC0 + v / 64 < 0xC2) := by omega
      have hb3 : 0xC0 + v / 64 < 0xE0 := by omega
      have hc1 : isCont (0x80 + v % 64) = true := by
        simp only [isCont, decide_eq_true_eq]
        omega
      have harg : v / 64 * 64 + v % 64 = v := by omega
      have hge : 0x80 ≤ v := by omega
      simp [utf8DecodeAux, hb1, hb2, hb3, hc1, harg, hge, hns, hlt]
    · by_cases h3 : v < 0x10000
      · rw [utf8EncodeChar, if_neg h1, if_neg h2, if_pos h3]
        have hb1 : ¬ (0xE0 + v / 4096 < 0x80) := by omega
        have hb2 : ¬ (0xE0 + v / 4096 < 0xC2) := by omega
        have hb3 : ¬ (0xE0 + v / 4096 < 0xE0) := by omega
        have hb4 : 0xE0 + v / 4096 < 0xF0 := by omega
        have hc1 : isCont (0x80 + v / 64 % 64) = true := by
          simp only [isCont, decide_eq_true_eq]
          omega
        have hc2 : isCont (0x80 + v % 64) = true := by
          simp only [isCont, decide_eq_true_eq]
          omega
        have harg : (v / 4096 * 64 + v / 64 % 64) * 64 + v % 64 = v := by omega
        have hge : 0x800 ≤ v := by omega
        simp [utf8DecodeAux, hb1, hb2, hb3, hb4, hc1, hc2, harg, hge, hns, hlt]
      · rw [utf8EncodeChar, if_neg h1, if_neg h2, if_neg h3]
        have hb1 : ¬ (0xF0 + v / 262144 < 0x80) := by omega
        have hb2 : ¬ (0xF0 + v / 262144 < 0xC2) := by omega
        have hb3 : ¬ (0xF0 + v / 262144 < 0xE0) := by omega
        have hb4 : ¬ (0xF0 + v / 262144 < 0xF0) := by omega
        have hb5 : 0xF0 + v / 262144 < 0xF5 := by omega
        have hc1 : isCont (0x80 + v / 4096 % 64) = true := by
          simp only [isCont, decide_eq_true_eq]
          omega
        have hc2 : isCont (0x80 + v / 64 % 64) = true := by
          simp only [isCont, decide_eq_true_eq]
          omega
        have hc3 : isCont (0x80 + v % 64) = true := by
          simp only [isCont, decide_eq_true_eq]
          omega
        have harg : ((v / 262144 * 64 + v / 4096 % 64) * 64 + v / 64 % 64) * 64 + v % 64
            = v := by omega
        have hge : 0x10000 ≤ v := by omega
        simp [utf8DecodeAux, hb1, hb2, hb3, hb4, hb5, hc1, hc2, hc3, harg, hge, hns, hlt]

theorem utf8Decode_encodeChar (c : Char) (bs : List Nat) :
    utf8Decode (utf8EncodeChar c.toNat ++ bs) = (utf8Decode bs).map (fun cs => c :: cs) := by
  have hv : Nat.isValidChar c.toNat := c.valid
  rw [utf8Decode, utf8Decode, utf8DecodeAux_encodeChar c.toNat bs hv]
  simp [Char.ofNat_toNat]

theorem utf8Decode_utf8Encode (cs : List Char) : utf8Decode (utf8Encode cs) = some cs := by
  induction cs with
  | nil => simp [utf8Encode, utf8Decode, utf8DecodeAux]
  | cons c cs ih =>
    have hstep : utf8Encode (c :: cs) = utf8EncodeChar c.toNat ++ utf8Encode cs := by
      simp [utf8Encode]
    rw [hstep, utf8Decode_encodeChar, ih]
    rfl

theorem gather_metrics_eq (w : World) :
    Metrics.gather_metrics w = .ok (renderRegistry w.defaultReg) := by
  simp [Metrics.gather_metrics, textEncode, stringFromUtf8, gather,
    utf8Decode_utf8Encode, string_mk_data]

theorem world_get_setReg (w : World) (sel : RegistrySel) (r : Registry) :
    (w.setReg sel r).get sel = r := by
  cases sel <;> rfl

theorem world_setReg_setReg (w : World) (sel : RegistrySel) (r1 r2 : Registry) :
    (w.setReg sel r1).setReg sel r2 = w.setReg sel r2 := by
  cases sel <;> rfl

theorem mem_set_self {reg : Registry} {g : Gauge} (hg : g ∈ reg) (v : Int) :
    { g with value := v } ∈ reg.set g.name v := by
  unfold Registry.set
  refine List.mem_map.mpr ⟨g, hg, ?_⟩
  simp

theorem set_shape {reg : Registry} {n : String} {v : Int} {g' : Gauge}
    (h : g' ∈ reg.set n v) : ∃ g0 ∈ reg, g'.name = g0.name ∧ g'.help = g0.help := by
  unfold Registry.set at h
  rcases List.mem_map.mp h with ⟨g0, hg0, he⟩
  refine ⟨g0, hg0, ?_⟩
  split at he <;> subst he <;> simp

theorem getValue_set {reg : Registry} {n : String} (v : Int)
    (h : Registry.containsName reg n = true) :
    Registry.getValue (Registry.set reg n v) n = some v := by
  induction reg with
  | nil => simp [Registry.containsName] at h
  | cons g reg ih =>
    by_cases hb : (g.name == n) = true
    · unfold Registry.set Registry.getValue
      rw [List.map_cons, if_pos hb,
        List.find?_cons_of_pos (p := fun g' : Gauge => g'.name == n)
          (a := ({ name := g.name, help := g.help, value := v } : Gauge)) _ hb]
      rfl
    · have h' : Registry.containsName reg n = true := by
        simp only [Registry.containsName, List.any_cons, Bool.or_eq_true, hb,
          false_or] at h
        simpa [Registry.containsName] using h
      have hrec := ih h'
      unfold Registry.set Registry.getValue at hrec ⊢
      rw [List.map_cons, if_neg hb,
        List.find?_cons_of_neg (p := fun g' : Gauge => g'.name == n) (a := g) _ (by simpa using hb)]
      exact hrec

theorem set_set (reg : Registry) (n : String) (v : Int) :
    (reg.set n v).set n v = reg.set n v := by
  unfold Registry.set
  rw [List.map_map]
  refine List.map_congr_left ?_
  intro g _
  by_cases hb : g.name = n
  · simp [Function.comp, hb]
  · simp [Function.comp, hb]

theorem getValue_append_fresh (reg : Registry) (n hlp : String)
    (hc : Registry.containsName reg n = false) :
    Registry.getValue (reg ++ [⟨n, hlp, 0⟩]) n = some 0 := by
  induction reg with
  | nil =>
    unfold Registry.getValue
    rw [List.nil_append, List.find?_cons_of_pos _ (by simp)]
    rfl
  | cons g reg ih =>
    rw [Registry.containsName, List.any_cons, Bool.or_eq_false_iff] at hc
    rcases hc with ⟨hb, hc'⟩
    have hrec := ih (by simpa [Registry.containsName] using hc')
    unfold Registry.getValue at hrec ⊢
    rw [List.cons_append, List.find?_cons_of_neg _ (by simpa using hb)]
    exact hrec

theorem nl_not_mem_append {a b : String} (ha : '\n' ∉ a.data) (hb : '\n' ∉ b.data) :
    '\n' ∉ (a ++ b).data := by
  rw [String.data_append]
  intro h
  rcases List.mem_append.mp h with h | h
  · exact ha h
  · exact hb h

theorem renderLines_no_nl {reg : Registry}
    (h : ∀ g ∈ reg, '\n' ∉ g.name.data ∧ '\n' ∉ g.help.data) :
    ∀ l ∈ renderLines reg, '\n' ∉ l.data := by
  intro l hl
  unfold renderLines at hl
  rcases List.mem_flatten.mp hl with ⟨ls, hls, hlmem⟩
  rcases List.mem_map.mp hls with ⟨g, hgreg, rfl⟩
  rcases h g hgreg with ⟨hn, hh⟩
  simp only [gaugeLines, List.mem_cons, List.not_mem_nil, or_false] at hlmem
  rcases hlmem with rfl | rfl | rfl
  · exact nl_not_mem_append (nl_not_mem_append (nl_not_mem_append (by decide) hn) (by decide)) hh
  · exact nl_not_mem_append (nl_not_mem_append (by decide) hn) (by decide)
  · exact nl_not_mem_append (nl_not_mem_append hn (by decide)) (intRepr_ne_nl g.value)

theorem mem_renderLines {reg : Registry} {g : Gauge} (hg : g ∈ reg) :
    ∀ l ∈ gaugeLines g, l ∈ renderLines reg := by
  intro l hl
  unfold renderLines
  exact List.mem_flatten.mpr ⟨gaugeLines g, List.mem_map_of_mem _ hg, hl⟩

/-- Claim C1: for every boolean triple, `compute_health_score` returns one of
{0, 40, 65, 75, 100}; not running dominates and returns 0 regardless of the
other signals, and the four running combinations return 100, 65, 75 and 40
as listed in the unit tests. -/
theorem compute_health_score_table :
    (∀ p s, compute_health_score false p s = 0)
    ∧ compute_health_score true true true = 100
    ∧ compute_health_score true false true = 65
    ∧ compute_health_score true true false = 75
    ∧ compute_health_score true false false = 40
    ∧ ∀ r p s, compute_health_score r p s ∈ ([0, 40, 65, 75, 100] : List Int) := by
  decide

/-- Claim C2: when the health gauge's name is already registered,
`Metrics::new` fails with one fixed error (the `.expect` panic), identical
for every such registry state, and never returns a registry: the existing
gauge is not overwritten. -/
theorem metrics_new_duplicate_fails (w : World) (sel : RegistrySel)
    (h : Registry.containsName (w.get sel) healthGaugeName = true) :
    Metrics.new w sel = .error (.alreadyReg healthGaugeName)
    ∧ ∀ w' m, Metrics.new w sel ≠ .ok (w', m) := by
  have hmain : Metrics.new w sel = .error (.alreadyReg healthGaugeName) := by
    unfold Metrics.new Registry.register
    rw [if_pos h]
  exact ⟨hmain, fun w' m hcon => by rw [hmain] at hcon; cases hcon⟩

/-- Witness for C2: a registry that already holds a gauge named
`ldk_health_score` (with a different help and value) makes `Metrics::new`
fail. -/
theorem metrics_new_duplicate_fails_witness :
    Registry.containsName
        ((⟨[⟨"ldk_health_score", "some other gauge", 7⟩], []⟩ : World).get
          RegistrySel.defaultR) healthGaugeName = true
    ∧ (Metrics.new ⟨[⟨"ldk_health_score", "some other gauge", 7⟩], []⟩ RegistrySel.defaultR
          = .error (.alreadyReg healthGaugeName)
      ∧ ∀ w' m, Metrics.new ⟨[⟨"ldk_health_score", "some other gauge", 7⟩], []⟩
          RegistrySel.defaultR ≠ .ok (w', m)) :=
  ⟨by decide, metrics_new_duplicate_fails _ _ (by decide)⟩

/-- Claim C3 counterexample: at the spec's own example of an unavailable
collaborator — a node mid-shutdown, `is_running = false` — the cycle is not
skipped: a health gauge standing at 100 is overwritten with 0, so its value
does not stay unchanged. -/
theorem update_overwrites_mid_shutdown :
    Registry.getValue
        ((Metrics.update_service_health_score ⟨RegistrySel.defaultR, healthGaugeName⟩
            ⟨[⟨healthGaugeName, healthGaugeHelp, 100⟩], []⟩
            ⟨⟨false, some 1700000000⟩, ["peer"]⟩).get RegistrySel.defaultR)
        healthGaugeName = some 0
    ∧ ¬ (Registry.getValue
        ((Metrics.update_service_health_score ⟨RegistrySel.defaultR, healthGaugeName⟩
            ⟨[⟨healthGaugeName, healthGaugeHelp, 100⟩], []⟩
            ⟨⟨false, some 1700000000⟩, ["peer"]⟩).get RegistrySel.defaultR)
        healthGaugeName = some 100) := by
  decide

/-- Claim C3 (amended): the collaborator queries are infallible, so no cycle
is ever skipped and no error reaches the caller: every invocation of
`update_service_health_score` — a mid-shutdown node included — writes the
computed score into the health gauge, and mid-shutdown that score is 0. -/
theorem update_always_writes (m : Metrics) (w : World) (node : Node)
    (h : Registry.containsName (w.get m.registrySel) m.gaugeName = true) :
    Registry.getValue ((m.update_service_health_score w node).get m.registrySel) m.gaugeName
      = some (calculate_ldk_server_health_score node)
    ∧ (node.status.is_running = false →
      Registry.getValue ((m.update_service_health_score w node).get m.registrySel) m.gaugeName
        = some 0) := by
  have hmain : Registry.getValue ((m.update_service_health_score w node).get m.registrySel)
      m.gaugeName = some (calculate_ldk_server_health_score node) := by
    unfold Metrics.update_service_health_score
    rw [world_get_setReg]
    exact getValue_set _ h
  refine ⟨hmain, fun hrun => ?_⟩
  rw [hmain]
  unfold calculate_ldk_server_health_score compute_health_score
  rw [hrun]
  simp

/-- Witness for the amended C3: on a mid-shutdown node the update writes 0
into a registered health gauge. -/
theorem update_always_writes_witness :
    Registry.containsName
        ((⟨[⟨healthGaugeName, healthGaugeHelp, 100⟩], []⟩ : World).get
          (⟨RegistrySel.defaultR, healthGaugeName⟩ : Metrics).registrySel)
        (⟨RegistrySel.defaultR, healthGaugeName⟩ : Metrics).gaugeName = true
    ∧ (Registry.getValue
          ((Metrics.update_service_health_score ⟨RegistrySel.defaultR, healthGaugeName⟩
              ⟨[⟨healthGaugeName, healthGaugeHelp, 100⟩], []⟩
              ⟨⟨false, none⟩, []⟩).get
            (⟨RegistrySel.defaultR, healthGaugeName⟩ : Metrics).registrySel)
          (⟨RegistrySel.defaultR, healthGaugeName⟩ : Metrics).gaugeName
        = some (calculate_ldk_server_health_score ⟨⟨false, none⟩, []⟩)
      ∧ ((⟨⟨false, none⟩, []⟩ : Node).status.is_running = false →
        Registry.getValue
            ((Metrics.update_service_health_score ⟨RegistrySel.defaultR, healthGaugeName⟩
                ⟨[⟨healthGaugeName, healthGaugeHelp, 100⟩], []⟩
                ⟨⟨false, none⟩, []⟩).get
              (⟨RegistrySel.defaultR, healthGaugeName⟩ : Metrics).registrySel)
            (⟨RegistrySel.defaultR, healthGaugeName⟩ : Metrics).gaugeName = some 0)) :=
  ⟨by decide, update_always_writes _ _ _ (by decide)⟩

/-- Claim C4: after setting a gauge registered in the default registry under
name `n` to value `v`, the `gather_metrics` text contains the sample line
`n v` as a complete line, together with the corresponding `# HELP` and
`# TYPE ... gauge` lines.  (Gauge names and help strings are newline-free,
as prometheus descriptors are.) -/
theorem gather_metrics_contains_lines (w : World) (g : Gauge) (v : Int)
    (hg : g ∈ w.defaultReg)
    (hok : ∀ g' ∈ w.defaultReg, '\n' ∉ g'.name.data ∧ '\n' ∉ g'.help.data) :
    ∃ out, Metrics.gather_metrics { w with defaultReg := Registry.set w.defaultReg g.name v }
        = .ok out
      ∧ containsLine out (g.name ++ " " ++ intRepr v)
      ∧ containsLine out ("# HELP " ++ g.name ++ " " ++ g.help)
      ∧ containsLine out ("# TYPE " ++ g.name ++ " gauge") := by
  have hok' : ∀ g' ∈ Registry.set w.defaultReg g.name v,
      '\n' ∉ g'.name.data ∧ '\n' ∉ g'.help.data := by
    intro g' hmem
    rcases set_shape hmem with ⟨g0, hg0, hname, hhelp⟩
    rcases hok g0 hg0 with ⟨h1, h2⟩
    rw [hname, hhelp]
    exact ⟨h1, h2⟩
  have hlines : linesOf (renderRegistry (Registry.set w.defaultReg g.name v))
      = renderLines (Registry.set w.defaultReg g.name v) ++ [""] :=
    linesOf_renderRegistry _ (renderLines_no_nl hok')
  have hmem : ({ g with value := v } : Gauge) ∈ Registry.set w.defaultReg g.name v :=
    mem_set_self hg v
  refine ⟨renderRegistry (Registry.set w.defaultReg g.name v),
    gather_metrics_eq _, ?_, ?_, ?_⟩
  · unfold containsLine
    rw [hlines]
    refine List.mem_append_left _ (mem_renderLines hmem _ ?_)
    simp [gaugeLines]
  · unfold containsLine
    rw [hlines]
    refine List.mem_append_left _ (mem_renderLines hmem _ ?_)
    simp [gaugeLines]
  · unfold containsLine
    rw [hlines]
    refine List.mem_append_left _ (mem_renderLines hmem _ ?_)
    simp [gaugeLines]

/-- Witness for C4: setting the health gauge to 75 in a one-gauge default
registry puts the lines `ldk_health_score 75`, its HELP line and its TYPE
line into the export text. -/
theorem gather_metrics_contains_lines_witness :
    ((⟨healthGaugeName, healthGaugeHelp, 0⟩ : Gauge)
        ∈ (⟨[⟨healthGaugeName, healthGaugeHelp, 0⟩], []⟩ : World).defaultReg
      ∧ ∀ g' ∈ (⟨[⟨healthGaugeName, healthGaugeHelp, 0⟩], []⟩ : World).defaultReg,
          '\n' ∉ g'.name.data ∧ '\n' ∉ g'.help.data)
    ∧ ∃ out,
        Metrics.gather_metrics
            { (⟨[⟨healthGaugeName, healthGaugeHelp, 0⟩], []⟩ : World) with
              defaultReg := Registry.set
                (⟨[⟨healthGaugeName, healthGaugeHelp, 0⟩], []⟩ : World).defaultReg
                (⟨healthGaugeName, healthGaugeHelp, 0⟩ : Gauge).name 75 }
          = .ok out
        ∧ containsLine out ((⟨healthGaugeName, healthGaugeHelp, 0⟩ : Gauge).name
            ++ " " ++ intRepr 75)
        ∧ containsLine out ("# HELP " ++ (⟨healthGaugeName, healthGaugeHelp, 0⟩ : Gauge).name
            ++ " " ++ (⟨healthGaugeName, healthGaugeHelp, 0⟩ : Gauge).help)
        ∧ containsLine out ("# TYPE " ++ (⟨healthGaugeName, healthGaugeHelp, 0⟩ : Gauge).name
            ++ " gauge") :=
  ⟨⟨by decide, by decide⟩,
    gather_metrics_contains_lines _ _ 75 (by decide) (by decide)⟩

/-- Claim C5: `gather_metrics` returns the serialized exposition text with
`.ok`, and it returns an error precisely when the text encoder fails or the
encoded buffer is not valid UTF-8 — neither of which can happen, so every
call succeeds; the call is a pure function of the state, so a failure could
affect only its own result. -/
theorem gather_metrics_error_characterization (w : World) :
    Metrics.gather_metrics w = .ok (renderRegistry w.defaultReg)
    ∧ ((∃ e, Metrics.gather_metrics w = .error e)
      ↔ ((∃ e, textEncode (gather w) = .error e)
        ∨ ∃ buffer, textEncode (gather w) = .ok buffer ∧ utf8Decode buffer = none)) := by
  refine ⟨gather_metrics_eq w, ?_, ?_⟩
  · rintro ⟨e, he⟩
    rw [gather_metrics_eq w] at he
    cases he
  · rintro (⟨e, he⟩ | ⟨buffer, hbuf, hdec⟩)
    · simp [textEncode] at he
    · have hb : utf8Encode (renderRegistry (gather w)).data = buffer := by
        simpa [textEncode] using hbuf
      rw [← hb, utf8Decode_utf8Encode] at hdec
      cases hdec

/-- Claim C6: `gather_metrics` mutates no state: in the state-passing form
the registry state after the call is exactly the state before it, so every
registered gauge — the health gauge included — reads back identically. -/
theorem gather_metrics_no_mutation (w : World) (sel : RegistrySel) (n : String) :
    (Metrics.gather_metrics_st w).2 = w
    ∧ Registry.getValue ((Metrics.gather_metrics_st w).2.get sel) n
      = Registry.getValue (w.get sel) n :=
  ⟨rfl, rfl⟩

/-- Claim C7: `update_service_health_score` is idempotent for a fixed node
state: updating twice back-to-back leaves the registry state exactly as
updating once. -/
theorem update_idempotent (m : Metrics) (w : World) (node : Node) :
    m.update_service_health_score (m.update_service_health_score w node) node
      = m.update_service_health_score w node := by
  unfold Metrics.update_service_health_score
  rw [world_get_setReg, world_setReg_setReg, set_set]

/-- Claim C8 counterexample: the health gauge's registered name is the fixed
string "ldk_health_score", which is not the identifier
`service_health_score` named by the claim. -/
theorem health_gauge_name_counterexample :
    healthGaugeName = "ldk_health_score"
    ∧ healthGaugeName ≠ "service_health_score"
    ∧ Metrics.new ⟨[], []⟩ RegistrySel.defaultR
        = .ok (⟨[⟨"ldk_health_score", "Current health score (0-100)", 0⟩], []⟩,
            ⟨RegistrySel.defaultR, "ldk_health_score"⟩) :=
  ⟨rfl, by decide, rfl⟩

/-- Claim C8 (amended): the health gauge is registered under the fixed,
stable name "ldk_health_score" — not the spec's example identifier
`service_health_score` — with exactly the help string
"Current health score (0-100)" and initial value 0. -/
theorem health_gauge_registration (w : World) (sel : RegistrySel) (w' : World) (m : Metrics)
    (h : Metrics.new w sel = .ok (w', m)) :
    m.gaugeName = "ldk_health_score"
    ∧ (⟨"ldk_health_score", "Current health score (0-100)", 0⟩ : Gauge) ∈ w'.get sel := by
  unfold Metrics.new at h
  rcases hreg : Registry.register (w.get sel) healthGaugeName healthGaugeHelp with e | reg
  all_goals rw [hreg] at h
  · cases h
  · rw [Except.ok.injEq, Prod.mk.injEq] at h
    obtain ⟨hw, hm⟩ := h
    subst hw
    subst hm
    refine ⟨rfl, ?_⟩
    rw [world_get_setReg]
    unfold Registry.register at hreg
    split at hreg
    · cases hreg
    · rw [Except.ok.injEq] at hreg
      subst hreg
      exact List.mem_append_right _ (by simp [healthGaugeName, healthGaugeHelp])

/-- Witness for the amended C8: registering into an empty default registry
yields the gauge `ldk_health_score` with the fixed help string. -/
theorem health_gauge_registration_witness :
    Metrics.new ⟨[], []⟩ RegistrySel.defaultR
        = .ok (⟨[⟨"ldk_health_score", "Current health score (0-100)", 0⟩], []⟩,
            ⟨RegistrySel.defaultR, "ldk_health_score"⟩)
    ∧ ((⟨RegistrySel.defaultR, "ldk_health_score"⟩ : Metrics).gaugeName = "ldk_health_score"
      ∧ (⟨"ldk_health_score", "Current health score (0-100)", 0⟩ : Gauge)
          ∈ (⟨[⟨"ldk_health_score", "Current health score (0-100)", 0⟩], []⟩ : World).get
            RegistrySel.defaultR) :=
  ⟨rfl, health_gauge_registration ⟨[], []⟩ RegistrySel.defaultR _ _ rfl⟩

/-- Claim C9: immediately after `Metrics::new` registers the health gauge —
before any update cycle — the gauge reads zero. -/
theorem health_gauge_starts_at_zero (w : World) (sel : RegistrySel)
    (h : Registry.containsName (w.get sel) healthGaugeName = false) :
    ∃ w' m, Metrics.new w sel = .ok (w', m)
      ∧ Registry.getValue (w'.get sel) m.gaugeName = some 0 := by
  refine ⟨w.setReg sel (w.get sel ++ [⟨healthGaugeName, healthGaugeHelp, 0⟩]),
    ⟨sel, healthGaugeName⟩, ?_, ?_⟩
  · unfold Metrics.new Registry.register
    rw [if_neg (by simp [h])]
  · rw [world_get_setReg]
    exact getValue_append_fresh _ _ _ h

/-- Witness for C9: registering into an empty default registry leaves the
health gauge at zero. -/
theorem health_gauge_starts_at_zero_witness :
    Registry.containsName ((⟨[], []⟩ : World).get RegistrySel.defaultR) healthGaugeName = false
    ∧ ∃ w' m, Metrics.new ⟨[], []⟩ RegistrySel.defaultR = .ok (w', m)
        ∧ Registry.getValue (w'.get RegistrySel.defaultR) m.gaugeName = some 0 :=
  ⟨by decide, health_gauge_starts_at_zero _ _ (by decide)⟩

/-- Claim C10: `gather_metrics` renders the default registry through the
global `gather()`, whatever registry the `Metrics` was constructed over:
updates through a custom-registry handle never change the output, and the
output is independent of the custom registry's contents. -/
theorem gather_metrics_uses_default_registry (w : World) (m : Metrics) (node : Node)
    (h : m.registrySel = RegistrySel.customR) :
    Metrics.gather_metrics (m.update_service_health_score w node) = Metrics.gather_metrics w
    ∧ ∀ d c c' : Registry,
        Metrics.gather_metrics ⟨d, c⟩ = Metrics.gather_metrics ⟨d, c'⟩ := by
  constructor
  · unfold Metrics.update_service_health_score
    rw [h, gather_metrics_eq, gather_metrics_eq]
    rfl
  · intro d c c'
    rw [gather_metrics_eq, gather_metrics_eq]

/-- Witness for C10: an update through a `Metrics` registered over the
custom registry leaves the export output untouched. -/
theorem gather_metrics_uses_default_registry_witness :
    (⟨RegistrySel.customR, healthGaugeName⟩ : Metrics).registrySel = RegistrySel.customR
    ∧ (Metrics.gather_metrics
          (Metrics.update_service_health_score ⟨RegistrySel.customR, healthGaugeName⟩
            ⟨[], [⟨healthGaugeName, healthGaugeHelp, 0⟩]⟩ ⟨⟨true, some 1⟩, ["p"]⟩)
        = Metrics.gather_metrics ⟨[], [⟨healthGaugeName, healthGaugeHelp, 0⟩]⟩
      ∧ ∀ d c c' : Registry,
          Metrics.gather_metrics ⟨d, c⟩ = Metrics.gather_metrics ⟨d, c'⟩) :=
  ⟨rfl, gather_metrics_uses_default_registry _ _ _ rfl⟩

end LdkServer
